import Mathlib

/-!
Verification development for the taiwan_interchange frontend:
a shallow embedding of the client's data model, runtime type guards
(`src/frontend/src/lib/types.ts`), the interchange loader
(`fetchInterchanges`), and the UI helper functions, together with
theorems settling the specification claims about them.
-/

/-! ## A model of JavaScript runtime values

The type guards in `types.ts` operate on `unknown` JavaScript values:
objects with string keys, arrays, numbers, strings, booleans, `null` and
`undefined`.  Property access on an object yields `undefined` when the
key is absent.  Numbers are modelled as rationals (no arithmetic is ever
performed on them by the guards; only the runtime type tag matters). -/

inductive JsValue where
  | num (q : ℚ)
  | str (s : String)
  | jsBool (b : Bool)
  | null
  | jsUndefined
  | arr (items : List JsValue)
  | obj (fields : List (String × JsValue))

namespace JsValue

/-- JavaScript property access `v[k]`: looks the key up in an object's
field list, `undefined` otherwise (the guards only access properties
after a `typeof v === 'object' && v !== null` check). -/
def get (v : JsValue) (k : String) : JsValue :=
  match v with
  | .obj fields =>
    match fields.find? (fun p => p.1 == k) with
    | some p => p.2
    | none => .jsUndefined
  | _ => .jsUndefined

/-- Test `typeof v === 'object' && v !== null` (in JS, `typeof` of an array
and of `null` is `'object'`). -/
def isObjNonNull : JsValue → Bool
  | .obj _ => true
  | .arr _ => true
  | _ => false

/-- Test `typeof v === 'number'`. -/
def isNumberTag : JsValue → Bool
  | .num _ => true
  | _ => false

/-- Test `typeof v === 'string'`. -/
def isStringTag : JsValue → Bool
  | .str _ => true
  | _ => false

/-- Test `Array.isArray(v)`. -/
def isArrayTag : JsValue → Bool
  | .arr _ => true
  | _ => false

/-- The element list of an array value (only consulted after an
`Array.isArray` check succeeded; `[]` otherwise). -/
def elems : JsValue → List JsValue
  | .arr items => items
  | _ => []

end JsValue

/-! ## The runtime type guards of `types.ts` -/

/-- Guard `isNode` from `types.ts`. -/
def isNode (v : JsValue) : Bool :=
  v.isObjNonNull &&
  (v.get "lat").isNumberTag &&
  (v.get "lng").isNumberTag &&
  (v.get "id").isNumberTag

/-- Guard `isPath` from `types.ts`: field-type checks only. -/
def isPath (v : JsValue) : Bool :=
  v.isObjNonNull &&
  (v.get "id").isNumberTag &&
  (v.get "part").isNumberTag &&
  (v.get "nodes").isArrayTag &&
  (v.get "nodes").elems.all isNode

/-- The per-destination check inlined in `isRamp` in `types.ts`: the
three enum-valued fields are checked only with `typeof === 'string'`. -/
def isDestinationEntry (d : JsValue) : Bool :=
  d.isObjNonNull &&
  (d.get "id").isNumberTag &&
  (d.get "name").isStringTag &&
  (d.get "destination_type").isStringTag &&
  (d.get "road_type").isStringTag &&
  (d.get "relation_type").isStringTag

/-- Guard `isRamp` from `types.ts`. -/
def isRamp (v : JsValue) : Bool :=
  v.isObjNonNull &&
  (v.get "id").isNumberTag &&
  (v.get "destination").isArrayTag &&
  (v.get "destination").elems.all isDestinationEntry &&
  (v.get "from_ramps").isArrayTag &&
  (v.get "to_ramps").isArrayTag &&
  (v.get "paths").isArrayTag &&
  (v.get "paths").elems.all isPath

/-- Guard `isBounds` from `types.ts`. -/
def isBounds (v : JsValue) : Bool :=
  v.isObjNonNull &&
  (v.get "min_lat").isNumberTag &&
  (v.get "max_lat").isNumberTag &&
  (v.get "min_lng").isNumberTag &&
  (v.get "max_lng").isNumberTag

/-- Guard `isRelation` from `types.ts`. -/
def isRelation (v : JsValue) : Bool :=
  v.isObjNonNull &&
  (v.get "id").isNumberTag &&
  (v.get "name").isStringTag &&
  (v.get "road_type").isStringTag &&
  (v.get "relation_type").isStringTag

/-- Guard `isWikiData` from `types.ts`. -/
def isWikiData (v : JsValue) : Bool :=
  v.isObjNonNull &&
  (v.get "name").isStringTag &&
  (v.get "exit_text").isStringTag &&
  (v.get "km_distance").isStringTag &&
  (v.get "region").isStringTag &&
  (v.get "forward_direction").isArrayTag &&
  (v.get "reverse_direction").isArrayTag &&
  (v.get "interchange_type").isArrayTag &&
  (v.get "opening_date").isArrayTag &&
  (v.get "connecting_roads").isArrayTag &&
  (v.get "url").isStringTag

/-- Guard `isGovData` from `types.ts`. -/
def isGovData (v : JsValue) : Bool :=
  v.isObjNonNull &&
  (v.get "name").isStringTag &&
  (v.get "km_distance").isStringTag &&
  (v.get "service_area").isArrayTag &&
  (v.get "southbound_exit").isArrayTag &&
  (v.get "northbound_exit").isArrayTag &&
  (v.get "eastbound_exit").isArrayTag &&
  (v.get "westbound_exit").isArrayTag &&
  (v.get "notes").isArrayTag &&
  (v.get "facility_type").isStringTag &&
  (v.get "url").isStringTag

/-- Guard `isInterchange` from `types.ts`. -/
def isInterchange (v : JsValue) : Bool :=
  v.isObjNonNull &&
  (v.get "id").isNumberTag &&
  (v.get "name").isStringTag &&
  isBounds (v.get "bounds") &&
  (v.get "ramps").isArrayTag &&
  (v.get "ramps").elems.all isRamp &&
  (v.get "refs").isArrayTag &&
  (v.get "refs").elems.all isRelation &&
  (v.get "wikis").isArrayTag &&
  (v.get "wikis").elems.all isWikiData &&
  (v.get "govs").isArrayTag &&
  (v.get "govs").elems.all isGovData &&
  (v.get "wikidata_ids").isArrayTag &&
  (v.get "wikidata_ids").elems.all JsValue.isStringTag

/-! ## The loader `fetchInterchanges`
(`src/lib/stores/interchanges`, `part_005`) -/

/-- The possible outcomes of the `fetch('/interchanges.json')` call as
seen by `fetchInterchanges`: a non-ok HTTP status (it throws and is
caught), a thrown exception (network error, JSON parse error), or a
successfully parsed JSON body. -/
inductive FetchOutcome where
  | httpError (status : ℕ)
  | thrown
  | body (v : JsValue)

/-- Loader `fetchInterchanges`: returns the pair
(returned list, value written to `interchangesStore`).  A non-array
body, a non-ok status and a thrown exception all yield `([], [])`;
an array is filtered element-wise with `isInterchange`. -/
def fetchInterchanges : FetchOutcome → List JsValue × List JsValue
  | .httpError _ => ([], [])
  | .thrown => ([], [])
  | .body v =>
    match v with
    | .arr items =>
      let validatedData := items.filter isInterchange
      (validatedData, validatedData)
    | _ => ([], [])

/-! ## The structured data model (`types.ts` interfaces)

The typed view of the data once it has passed validation.  JS numbers
are modelled as rationals for coordinates and as integers for ids. -/

namespace TI

structure Node where
  lat : ℚ
  lng : ℚ
  id : ℤ
  deriving DecidableEq

structure Path where
  id : ℤ
  part : ℤ
  nodes : List Node
  deriving DecidableEq

structure Destination where
  id : ℤ
  name : String
  destination_type : String
  road_type : String
  relation_type : String
  deriving DecidableEq

structure Ramp where
  id : ℤ
  destination : List Destination
  from_ramps : List ℤ
  to_ramps : List ℤ
  paths : List Path
  deriving DecidableEq

structure Bounds where
  min_lat : ℚ
  max_lat : ℚ
  min_lng : ℚ
  max_lng : ℚ
  deriving DecidableEq

structure RouteRef where
  id : ℤ
  name : String
  road_type : String
  relation_type : String
  deriving DecidableEq

structure Interchange where
  id : ℤ
  name : String
  bounds : Bounds
  ramps : List Ramp
  refs : List RouteRef
  wikidata_ids : List String
  deriving DecidableEq

end TI

/-! ## UI helper functions (`InterchangeDetail.svelte`) -/

/-- Helper `getOSMLink` from `InterchangeDetail.svelte`: a `switch` on the
relation-type string with a `relation` default. -/
def getOSMLink (id : ℤ) (relationType : String) : String :=
  match relationType with
  | "RELATION" => "https://www.openstreetmap.org/relation/" ++ toString id
  | "WAY" => "https://www.openstreetmap.org/way/" ++ toString id
  | "NODE" => "https://www.openstreetmap.org/node/" ++ toString id
  | _ => "https://www.openstreetmap.org/relation/" ++ toString id

/-- Helper `getRampConnections` from `InterchangeDetail.svelte`:
`from_ramps`/`to_ramps` ids mapped through
`interchange.ramps.find(...)` and filtered for `undefined`
(`map` + `filter (· ≠ undefined)` is `List.filterMap`).
Returns the pair `(fromRamps, toRamps)`. -/
def getRampConnections (interchange : TI.Interchange) (ramp : TI.Ramp) :
    List TI.Ramp × List TI.Ramp :=
  (ramp.from_ramps.filterMap (fun i => interchange.ramps.find? (fun r => r.id == i)),
   ramp.to_ramps.filterMap (fun i => interchange.ramps.find? (fun r => r.id == i)))

/-! ## The search filter (`SearchComponent.svelte`) -/

/-- JS `String.prototype.includes`: substring containment. -/
def strIncludes (s sub : String) : Bool :=
  decide (sub.toList <:+: s.toList)

/-- The filter predicate of the `$effect` block in
`SearchComponent.svelte`, with the component's filter state passed
explicitly. -/
def matchesFilter (searchTerm : String)
    (includeWeighStations includeServiceAreas : Bool)
    (selectedRefFilter : String) (interchange : TI.Interchange) : Bool :=
  let matchesSearch :=
    searchTerm == "" ||
      strIncludes interchange.name.toLower searchTerm.toLower
  let matchesWeighStation :=
    includeWeighStations ||
      !(strIncludes interchange.name "地磅站" && !strIncludes interchange.name ";")
  let matchesServiceArea :=
    includeServiceAreas ||
      !((strIncludes interchange.name "服務區" || strIncludes interchange.name "休息站") &&
        !strIncludes interchange.name ";")
  let matchesRefFilter :=
    selectedRefFilter == "all" ||
      interchange.refs.any (fun ref => ref.name == selectedRefFilter)
  matchesSearch && matchesWeighStation && matchesServiceArea && matchesRefFilter

/-- The `$effect` body: `filteredInterchanges = interchanges.filter(...)`. -/
def filterInterchanges (searchTerm : String)
    (includeWeighStations includeServiceAreas : Bool)
    (selectedRefFilter : String) (interchanges : List TI.Interchange) :
    List TI.Interchange :=
  interchanges.filter
    (matchesFilter searchTerm includeWeighStations includeServiceAreas selectedRefFilter)

/-! ## The bounds computation (backend, modelled from the spec) -/

/-- All nodes of an interchange: every `Node` in every `Path` of every
`Ramp` in `ramps`. -/
def allInterchangeNodes (ic : TI.Interchange) : List TI.Node :=
  ic.ramps.flatMap (fun r => r.paths.flatMap (fun p => p.nodes))

/-- One min/max accumulation step over a node. -/
def boundsStep (b : TI.Bounds) (n : TI.Node) : TI.Bounds :=
  ⟨min b.min_lat n.lat, max b.max_lat n.lat,
   min b.min_lng n.lng, max b.max_lng n.lng⟩

/-- Modelled from the spec: the backend stage that assigns `bounds`
is not part of the sources under `src/` (only the frontend is); §3
specifies `bounds` as "the tight bounding box of every Node across
every Path of every Ramp in `ramps`", i.e. the min/max lat/lng over
those nodes.  `none` when the interchange has no nodes. -/
def computeBounds (nodes : List TI.Node) : Option TI.Bounds :=
  match nodes with
  | [] => none
  | n :: rest => some (rest.foldl boundsStep ⟨n.lat, n.lat, n.lng, n.lng⟩)

/-! ## The destination-annotation walk (backend, modelled from the spec) -/

/-- The number of in-scope ramp ids not yet visited: the measure that
shrinks along a destination walk. -/
def unseenCount (ramps visited : List ℤ) : ℕ :=
  (ramps.filter (fun r => decide (r ∉ visited))).length

/-- Modelled from the spec: the destination annotator (§4.4) is backend
code not present under `src/`.  Per §4.4 and §9 it walks the
`to_ramps`/`from_ramps` adjacency (`adj`) over integer ramp ids outward
from a ramp until a named target is found (`named`), carries an explicit
visited-id set, stops on out-of-scope ids, and yields an empty result
for a direction whose walk revisits a ramp without finding a named
target.  The fuel argument makes the recursion structural; the
theorems below show the result is already stable at fuel
`unseenCount ramps visited + 1`. -/
def walkAux (adj : ℤ → List ℤ) (named : ℤ → Option String) (ramps : List ℤ) :
    ℕ → List ℤ → ℤ → List String
  | 0, _, _ => []
  | fuel + 1, visited, cur =>
    if cur ∈ ramps then
      if cur ∈ visited then []
      else
        match named cur with
        | some s => [s]
        | none => (adj cur).flatMap (walkAux adj named ramps fuel (cur :: visited))
    else []

/-- A full destination walk from a ramp: fuel one more than the number
of in-scope ramps. -/
def destinationWalk (adj : ℤ → List ℤ) (named : ℤ → Option String)
    (ramps : List ℤ) (start : ℤ) : List String :=
  walkAux adj named ramps (ramps.length + 1) [] start

/-! ## Concrete sample values used to instantiate the theorems -/

/-- A well-typed JSON bounds object. -/
def sampleBounds : JsValue :=
  .obj [("min_lat", .num 25), ("max_lat", .num 26),
        ("min_lng", .num 121), ("max_lng", .num 122)]

/-- A JSON interchange object carrying every §3 field with the correct
type. -/
def sampleIcFull : JsValue :=
  .obj [("id", .num 1), ("name", .str "sample"), ("bounds", sampleBounds),
        ("ramps", .arr []), ("refs", .arr []), ("wikis", .arr []),
        ("govs", .arr []), ("wikidata_ids", .arr [])]

/-- The same interchange object with the optional list field `wikis`
absent. -/
def sampleIcNoWikis : JsValue :=
  .obj [("id", .num 1), ("name", .str "sample"), ("bounds", sampleBounds),
        ("ramps", .arr []), ("refs", .arr []),
        ("govs", .arr []), ("wikidata_ids", .arr [])]

/-- A JSON path object whose `nodes` list is empty (fewer than 2
nodes). -/
def samplePathNoNodes : JsValue :=
  .obj [("id", .num 100), ("part", .num 0), ("nodes", .arr [])]

/-- A JSON path object with the given id, part and nodes. -/
def mkJsPath (i part : ℚ) (nodes : List JsValue) : JsValue :=
  .obj [("id", .num i), ("part", .num part), ("nodes", .arr nodes)]

/-- A JSON destination entry with the given strings in the three
enum-valued fields. -/
def mkJsDestination (i : ℚ) (nm dt rt rel : String) : JsValue :=
  .obj [("id", .num i), ("name", .str nm), ("destination_type", .str dt),
        ("road_type", .str rt), ("relation_type", .str rel)]

/-- A JSON ramp object with the given destination list and no paths. -/
def mkJsRamp (i : ℚ) (dests : List JsValue) : JsValue :=
  .obj [("id", .num i), ("destination", .arr dests),
        ("from_ramps", .arr []), ("to_ramps", .arr []), ("paths", .arr [])]

/-- A destination entry whose three enum fields hold strings outside
every §3 enum. -/
def sampleBadDestination : JsValue :=
  mkJsDestination 7 "x" "TELEPORT" "skyway" "GALAXY"

/-- A ramp carrying `sampleBadDestination`. -/
def sampleRampBadDest : JsValue := mkJsRamp 3 [sampleBadDestination]

/-- Three concrete structured ramps for the connection-lookup sample. -/
def sampleRampA : TI.Ramp :=
  { id := 10, destination := [], from_ramps := [11, 99], to_ramps := [11],
    paths := [] }

def sampleRampB : TI.Ramp :=
  { id := 11, destination := [], from_ramps := [10], to_ramps := [10, 99],
    paths := [] }

/-- A structured interchange holding `sampleRampA` and `sampleRampB`;
ramp id `99` is referenced but belongs to no ramp of it. -/
def sampleIc : TI.Interchange :=
  { id := 1, name := "樹林地磅站", bounds := ⟨25, 26, 121, 122⟩,
    ramps := [sampleRampA, sampleRampB], refs := [], wikidata_ids := [] }

/-- A structured interchange with two ramps and explicit node
coordinates, whose `bounds` field equals the computed bounding box. -/
def sampleIcGeom : TI.Interchange :=
  { id := 2, name := "geom", bounds := ⟨24, 26, 120, 123⟩,
    ramps :=
      [{ id := 20, destination := [], from_ramps := [], to_ramps := [],
         paths := [{ id := 200, part := 0,
                     nodes := [⟨25, 121, 1⟩, ⟨24, 123, 2⟩] }] },
       { id := 21, destination := [], from_ramps := [], to_ramps := [],
         paths := [{ id := 201, part := 0,
                     nodes := [⟨26, 120, 3⟩] }] }],
    refs := [], wikidata_ids := [] }

/-- A three-ramp cyclic adjacency (cloverleaf-style loop 1 → 2 → 3 → 1)
with no named targets anywhere. -/
def sampleCycleAdj : ℤ → List ℤ :=
  fun cur => if cur == 1 then [2] else if cur == 2 then [3] else
    if cur == 3 then [1] else []

def sampleCycleNamed : ℤ → Option String := fun _ => none

def sampleCycleRamps : List ℤ := [1, 2, 3]

/-! ## Theorems -/

/-- Claim C1, counterexample: a JSON object carrying every §3 field with
the correct type is accepted, but the very same object with the optional
list field `wikis` absent is rejected by `isInterchange` and dropped by
`fetchInterchanges` — the absent field is not treated as the empty
list. -/
theorem isInterchange_absent_wikis_cex :
    JsValue.get sampleIcNoWikis "wikis" = JsValue.jsUndefined ∧
    isInterchange sampleIcFull = true ∧
    isInterchange sampleIcNoWikis = false ∧
    (fetchInterchanges (.body (.arr [sampleIcNoWikis]))).1 = [] :=
  ⟨rfl, rfl, rfl, rfl⟩

/-- Claim C1, amended: the consumer rejects, rather than defaults, the
optional list fields — whenever any of `wikis`, `govs`, `wikidata_ids`,
`refs` is absent (property access yields `undefined`), `isInterchange`
returns `false` and `fetchInterchanges` excludes the object from the
loaded list. -/
theorem isInterchange_requires_optional_list_fields
    (v : JsValue)
    (h : JsValue.get v "wikis" = JsValue.jsUndefined ∨
         JsValue.get v "govs" = JsValue.jsUndefined ∨
         JsValue.get v "wikidata_ids" = JsValue.jsUndefined ∨
         JsValue.get v "refs" = JsValue.jsUndefined) :
    isInterchange v = false ∧
      ∀ items : List JsValue, v ∉ (fetchInterchanges (.body (.arr items))).1 := by
  have hfalse : isInterchange v = false := by
    unfold isInterchange
    rcases h with h | h | h | h <;> rw [h] <;>
      simp [JsValue.isArrayTag]
  refine ⟨hfalse, fun items hmem => ?_⟩
  have hmem' : v ∈ items.filter isInterchange := hmem
  have := (List.mem_filter.1 hmem').2
  rw [hfalse] at this
  exact Bool.false_ne_true this

/-- Witness for the amended claim C1 at the concrete object missing
`wikis`. -/
theorem isInterchange_requires_optional_list_fields_witness :
    isInterchange sampleIcNoWikis = false ∧
      sampleIcNoWikis ∉ (fetchInterchanges (.body (.arr [sampleIcNoWikis]))).1 :=
  ⟨(isInterchange_requires_optional_list_fields sampleIcNoWikis (Or.inl rfl)).1,
   (isInterchange_requires_optional_list_fields sampleIcNoWikis (Or.inl rfl)).2
     [sampleIcNoWikis]⟩

/-- Claim C2: for every fetched JSON array, `fetchInterchanges` returns
exactly the elements passing `isInterchange`, in their original order
(a sublist of the input containing every passing element and only
passing elements, namely the filter of the input), and the load
completes normally with that list rather than aborting. -/
theorem fetchInterchanges_skips_malformed (items : List JsValue) :
    List.Sublist (fetchInterchanges (.body (.arr items))).1 items ∧
    (∀ v ∈ (fetchInterchanges (.body (.arr items))).1, isInterchange v = true) ∧
    (∀ v ∈ items, isInterchange v = true →
      v ∈ (fetchInterchanges (.body (.arr items))).1) ∧
    (fetchInterchanges (.body (.arr items))).1 = items.filter isInterchange := by
  have hfilter : (fetchInterchanges (.body (.arr items))).1 =
      items.filter isInterchange := rfl
  rw [hfilter]
  exact ⟨List.filter_sublist items,
         fun v hv => (List.mem_filter.1 hv).2,
         fun v hv h => List.mem_filter.2 ⟨hv, h⟩,
         rfl⟩

/-- Witness for claim C2: in a mixed array with one valid and one
malformed record, the valid record is kept. -/
theorem fetchInterchanges_skips_malformed_witness :
    sampleIcFull ∈ (fetchInterchanges (.body (.arr [sampleIcFull, sampleIcNoWikis]))).1 :=
  (fetchInterchanges_skips_malformed [sampleIcFull, sampleIcNoWikis]).2.2.1
    sampleIcFull (List.mem_cons_self _ _) rfl

/-- Claim C3, counterexample: a path object whose `nodes` list is empty
(fewer than 2 nodes) is accepted by `isPath`. -/
theorem isPath_short_nodes_cex :
    JsValue.get samplePathNoNodes "nodes" = JsValue.arr [] ∧
    isPath samplePathNoNodes = true :=
  ⟨rfl, rfl⟩

/-- Claim C3, amended: `isPath` checks field types only and imposes no
lower bound on the node count — any well-typed node list, of any length
including 0 and 1, is accepted. -/
theorem isPath_type_checks_only (i part : ℚ) (nodes : List JsValue)
    (h : nodes.all isNode = true) :
    isPath (mkJsPath i part nodes) = true := by
  have hb : isPath (mkJsPath i part nodes) = nodes.all isNode := rfl
  rw [hb, h]

/-- Witness for the amended claim C3: the empty node list is accepted. -/
theorem isPath_type_checks_only_witness :
    isPath (mkJsPath 100 0 []) = true :=
  isPath_type_checks_only 100 0 [] rfl

/-- Claim C4, counterexample: a destination entry whose
`destination_type`, `road_type` and `relation_type` hold strings outside
every §3 enum is nevertheless accepted by `isRamp`. -/
theorem isRamp_nonenum_strings_cex :
    JsValue.get sampleRampBadDest "destination" = JsValue.arr [sampleBadDestination] ∧
    JsValue.get sampleBadDestination "destination_type" = JsValue.str "TELEPORT" ∧
    JsValue.get sampleBadDestination "road_type" = JsValue.str "skyway" ∧
    JsValue.get sampleBadDestination "relation_type" = JsValue.str "GALAXY" ∧
    isRamp sampleRampBadDest = true :=
  ⟨rfl, rfl, rfl, rfl, rfl⟩

/-- Claim C4, amended: `isRamp` checks the three enum-valued destination
fields only for being strings — a destination entry carrying arbitrary
string values in `destination_type`, `road_type` and `relation_type` is
accepted. -/
theorem isRamp_destination_fields_any_string
    (i di : ℚ) (nm dt rt rel : String) :
    isRamp (mkJsRamp i [mkJsDestination di nm dt rt rel]) = true := rfl

/-- Claim C5: `getOSMLink` builds the external reference link from
`relation_type`, mapping `RELATION`, `WAY` and `NODE` to the
corresponding OpenStreetMap URL for the given id. -/
theorem getOSMLink_by_relation_type (id : ℤ) :
    getOSMLink id "RELATION" = "https://www.openstreetmap.org/relation/" ++ toString id ∧
    getOSMLink id "WAY" = "https://www.openstreetmap.org/way/" ++ toString id ∧
    getOSMLink id "NODE" = "https://www.openstreetmap.org/node/" ++ toString id :=
  ⟨rfl, rfl, rfl⟩

/-- Claim C10: `fetchInterchanges` is total and fails closed — the store
always receives exactly the returned list; a non-ok HTTP status, a
thrown exception and a non-array body all yield the empty list; an
array body yields the `isInterchange`-validated list. -/
theorem fetchInterchanges_fails_closed (o : FetchOutcome) :
    (fetchInterchanges o).2 = (fetchInterchanges o).1 ∧
    (∀ s, o = .httpError s → (fetchInterchanges o).1 = []) ∧
    (o = .thrown → (fetchInterchanges o).1 = []) ∧
    (∀ items, o = .body (.arr items) →
      (fetchInterchanges o).1 = items.filter isInterchange) ∧
    (∀ v, o = .body v → v.isArrayTag = false →
      (fetchInterchanges o).1 = []) := by
  refine ⟨?_, ?_, ?_, ?_, ?_⟩
  · cases o with
    | httpError s => rfl
    | thrown => rfl
    | body v => cases v <;> rfl
  · intro s hs; subst hs; rfl
  · intro h; subst h; rfl
  · intro items h; subst h; rfl
  · intro v h hv; subst h
    cases v <;> simp_all [fetchInterchanges, JsValue.isArrayTag]

/-- Witness for claim C10 at the thrown-exception outcome. -/
theorem fetchInterchanges_fails_closed_witness :
    (fetchInterchanges FetchOutcome.thrown).1 = [] :=
  (fetchInterchanges_fails_closed FetchOutcome.thrown).2.2.1 rfl

/-- Mapping ids through `find?` and dropping misses yields, id-wise,
exactly the ids with a match, in order. -/
theorem idLookup_map_id (rs : List TI.Ramp) (ids : List ℤ) :
    ((ids.filterMap (fun i => rs.find? (fun r => r.id == i))).map (fun r => r.id)) =
      ids.filter (fun i => rs.any (fun r => r.id == i)) := by
  induction ids with
  | nil => rfl
  | cons i ids ih =>
    rw [List.filterMap_cons]
    cases hfind : rs.find? (fun r => r.id == i) with
    | none =>
      have hany : rs.any (fun r => r.id == i) = false := by
        rw [List.any_eq_false]
        intro r hr
        exact List.find?_eq_none.1 hfind r hr
      simp [List.filter_cons, hany, ih]
    | some r =>
      have hp := List.find?_some hfind
      have hany : rs.any (fun r => r.id == i) = true :=
        List.any_eq_true.2 ⟨r, List.mem_of_find?_eq_some hfind, hp⟩
      have hid : r.id = i := eq_of_beq hp
      simp [List.filter_cons, hany, ih, hid]

/-- Every ramp produced by the id lookup comes from the searched list. -/
theorem idLookup_mem (rs : List TI.Ramp) (ids : List ℤ) :
    ∀ r ∈ ids.filterMap (fun i => rs.find? (fun x => x.id == i)), r ∈ rs := by
  intro r hr
  rcases List.mem_filterMap.1 hr with ⟨i, _, hfind⟩
  exact List.mem_of_find?_eq_some hfind

/-- Claim C6: `getRampConnections` is total and silently drops unmatched
ids — id-wise its `fromRamps` (resp. `toRamps`) output is exactly the
`from_ramps` (resp. `to_ramps`) ids that match a ramp of the
interchange, in list order, and every returned entry is one of the
interchange's ramps (no error, no `undefined` entry). -/
theorem getRampConnections_exact (interchange : TI.Interchange) (ramp : TI.Ramp) :
    ((getRampConnections interchange ramp).1.map (fun r => r.id) =
       ramp.from_ramps.filter (fun i => interchange.ramps.any (fun r => r.id == i)) ∧
     ∀ r ∈ (getRampConnections interchange ramp).1, r ∈ interchange.ramps) ∧
    ((getRampConnections interchange ramp).2.map (fun r => r.id) =
       ramp.to_ramps.filter (fun i => interchange.ramps.any (fun r => r.id == i)) ∧
     ∀ r ∈ (getRampConnections interchange ramp).2, r ∈ interchange.ramps) :=
  ⟨⟨idLookup_map_id _ _, idLookup_mem _ _⟩,
   ⟨idLookup_map_id _ _, idLookup_mem _ _⟩⟩

/-- Witness for claim C6: in the sample interchange, the connection
returned for ramp A is a ramp of the interchange (the dangling id `99`
was dropped). -/
theorem getRampConnections_exact_witness :
    sampleRampB ∈ sampleIc.ramps :=
  (getRampConnections_exact sampleIc sampleRampA).1.2 sampleRampB (by decide)

/-- Claim C7: under the initial filter state of `SearchComponent`
(`includeWeighStations = true`, `includeServiceAreas = true`,
`selectedRefFilter = 'all'`, `searchTerm = ''`) every interchange passes
the filter, so `filteredInterchanges` equals the input list — in
particular weigh-station interchanges are retained. -/
theorem initial_filter_keeps_all (interchanges : List TI.Interchange) :
    filterInterchanges "" true true "all" interchanges = interchanges := by
  unfold filterInterchanges
  apply List.filter_eq_self.2
  intro ic _
  rfl

/-- The four coordinates of the bounds fold are the four scalar
min/max folds. -/
theorem foldl_bounds_proj (l : List TI.Node) (b : TI.Bounds) :
    (l.foldl boundsStep b).min_lat = l.foldl (fun a n => min a n.lat) b.min_lat ∧
    (l.foldl boundsStep b).max_lat = l.foldl (fun a n => max a n.lat) b.max_lat ∧
    (l.foldl boundsStep b).min_lng = l.foldl (fun a n => min a n.lng) b.min_lng ∧
    (l.foldl boundsStep b).max_lng = l.foldl (fun a n => max a n.lng) b.max_lng := by
  induction l generalizing b with
  | nil => exact ⟨rfl, rfl, rfl, rfl⟩
  | cons n l ih => simpa [boundsStep] using ih (boundsStep b n)

/-- A running minimum never exceeds its seed. -/
theorem foldl_min_le_init (f : TI.Node → ℚ) (l : List TI.Node) (a : ℚ) :
    l.foldl (fun acc n => min acc (f n)) a ≤ a := by
  induction l generalizing a with
  | nil => exact le_refl a
  | cons n l ih => exact le_trans (ih (min a (f n))) (min_le_left _ _)

/-- A running minimum is a lower bound of the folded values. -/
theorem foldl_min_le_mem (f : TI.Node → ℚ) (l : List TI.Node) (a : ℚ) :
    ∀ n ∈ l, l.foldl (fun acc m => min acc (f m)) a ≤ f n := by
  induction l generalizing a with
  | nil => intro n h; cases h
  | cons m l ih =>
    intro n hn
    rcases List.mem_cons.1 hn with h | h
    · subst h
      exact le_trans (foldl_min_le_init f l (min a (f n))) (min_le_right _ _)
    · exact ih (min a (f m)) n h

/-- A running minimum is its seed or one of the folded values. -/
theorem foldl_min_attained (f : TI.Node → ℚ) (l : List TI.Node) (a : ℚ) :
    l.foldl (fun acc n => min acc (f n)) a = a ∨
      ∃ n ∈ l, l.foldl (fun acc m => min acc (f m)) a = f n := by
  induction l generalizing a with
  | nil => exact Or.inl rfl
  | cons m l ih =>
    rcases ih (min a (f m)) with h | ⟨n, hn, hEq⟩
    · rcases min_choice a (f m) with hm | hm
      · exact Or.inl (h.trans hm)
      · exact Or.inr ⟨m, List.mem_cons_self m l, h.trans hm⟩
    · exact Or.inr ⟨n, List.mem_cons_of_mem m hn, hEq⟩

/-- A running maximum is at least its seed. -/
theorem foldl_max_ge_init (f : TI.Node → ℚ) (l : List TI.Node) (a : ℚ) :
    a ≤ l.foldl (fun acc n => max acc (f n)) a := by
  induction l generalizing a with
  | nil => exact le_refl a
  | cons n l ih => exact le_trans (le_max_left _ _) (ih (max a (f n)))

/-- A running maximum is an upper bound of the folded values. -/
theorem foldl_max_ge_mem (f : TI.Node → ℚ) (l : List TI.Node) (a : ℚ) :
    ∀ n ∈ l, f n ≤ l.foldl (fun acc m => max acc (f m)) a := by
  induction l generalizing a with
  | nil => intro n h; cases h
  | cons m l ih =>
    intro n hn
    rcases List.mem_cons.1 hn with h | h
    · subst h
      exact le_trans (le_max_right _ _) (foldl_max_ge_init f l (max a (f n)))
    · exact ih (max a (f m)) n h

/-- A running maximum is its seed or one of the folded values. -/
theorem foldl_max_attained (f : TI.Node → ℚ) (l : List TI.Node) (a : ℚ) :
    l.foldl (fun acc n => max acc (f n)) a = a ∨
      ∃ n ∈ l, l.foldl (fun acc m => max acc (f m)) a = f n := by
  induction l generalizing a with
  | nil => exact Or.inl rfl
  | cons m l ih =>
    rcases ih (max a (f m)) with h | ⟨n, hn, hEq⟩
    · rcases max_choice a (f m) with hm | hm
      · exact Or.inl (h.trans hm)
      · exact Or.inr ⟨m, List.mem_cons_self m l, h.trans hm⟩
    · exact Or.inr ⟨n, List.mem_cons_of_mem m hn, hEq⟩

/-- Claim C8: when an interchange's `bounds` is the bounding box the
pipeline computes (modelled from the spec, `computeBounds`), it is
tight — every node of every path of every ramp lies within
`min_lat`/`max_lat`/`min_lng`/`max_lng`, and each of the four bounds is
attained by some node. -/
theorem bounds_tight_bounding_box (ic : TI.Interchange)
    (hb : computeBounds (allInterchangeNodes ic) = some ic.bounds) :
    (∀ n ∈ allInterchangeNodes ic,
       ic.bounds.min_lat ≤ n.lat ∧ n.lat ≤ ic.bounds.max_lat ∧
       ic.bounds.min_lng ≤ n.lng ∧ n.lng ≤ ic.bounds.max_lng) ∧
    (∃ n ∈ allInterchangeNodes ic, ic.bounds.min_lat = n.lat) ∧
    (∃ n ∈ allInterchangeNodes ic, ic.bounds.max_lat = n.lat) ∧
    (∃ n ∈ allInterchangeNodes ic, ic.bounds.min_lng = n.lng) ∧
    (∃ n ∈ allInterchangeNodes ic, ic.bounds.max_lng = n.lng) := by
  rcases hns : allInterchangeNodes ic with _ | ⟨n0, rest⟩
  · rw [hns] at hb
    exact absurd hb (by simp [computeBounds])
  · rw [hns] at hb
    have hb0 : some (rest.foldl boundsStep ⟨n0.lat, n0.lat, n0.lng, n0.lng⟩) =
        some ic.bounds := by
      rw [← hb]; rfl
    have hb' : ic.bounds = rest.foldl boundsStep ⟨n0.lat, n0.lat, n0.lng, n0.lng⟩ :=
      (Option.some.inj hb0).symm
    obtain ⟨h1, h2, h3, h4⟩ :=
      foldl_bounds_proj rest ⟨n0.lat, n0.lat, n0.lng, n0.lng⟩
    rw [hb', h1, h2, h3, h4]
    refine ⟨?_, ?_, ?_, ?_, ?_⟩
    · intro n hn
      rcases List.mem_cons.1 hn with h | h
      · subst h
        exact ⟨foldl_min_le_init _ _ _, foldl_max_ge_init _ _ _,
               foldl_min_le_init _ _ _, foldl_max_ge_init _ _ _⟩
      · exact ⟨foldl_min_le_mem _ _ _ n h, foldl_max_ge_mem _ _ _ n h,
               foldl_min_le_mem _ _ _ n h, foldl_max_ge_mem _ _ _ n h⟩
    · rcases foldl_min_attained (fun n => n.lat) rest n0.lat with h | ⟨n, hn, hEq⟩
      · exact ⟨n0, List.mem_cons_self _ _, h⟩
      · exact ⟨n, List.mem_cons_of_mem _ hn, hEq⟩
    · rcases foldl_max_attained (fun n => n.lat) rest n0.lat with h | ⟨n, hn, hEq⟩
      · exact ⟨n0, List.mem_cons_self _ _, h⟩
      · exact ⟨n, List.mem_cons_of_mem _ hn, hEq⟩
    · rcases foldl_min_attained (fun n => n.lng) rest n0.lng with h | ⟨n, hn, hEq⟩
      · exact ⟨n0, List.mem_cons_self _ _, h⟩
      · exact ⟨n, List.mem_cons_of_mem _ hn, hEq⟩
    · rcases foldl_max_attained (fun n => n.lng) rest n0.lng with h | ⟨n, hn, hEq⟩
      · exact ⟨n0, List.mem_cons_self _ _, h⟩
      · exact ⟨n, List.mem_cons_of_mem _ hn, hEq⟩

/-- Witness for claim C8 at a concrete two-ramp interchange whose
bounds equal the computed box: the minimum latitude is attained. -/
theorem bounds_tight_bounding_box_witness :
    ∃ n ∈ allInterchangeNodes sampleIcGeom,
      sampleIcGeom.bounds.min_lat = n.lat :=
  (bounds_tight_bounding_box sampleIcGeom (by decide)).2.1

/-- Growing the visited set never increases the unseen count. -/
theorem unseenCount_cons_le (ramps visited : List ℤ) (cur : ℤ) :
    unseenCount ramps (cur :: visited) ≤ unseenCount ramps visited := by
  unfold unseenCount
  induction ramps with
  | nil => exact le_refl 0
  | cons r rs ih =>
    by_cases h2 : r ∈ visited
    · have e1 : decide (r ∉ cur :: visited) = false :=
        decide_eq_false (fun hn => hn (List.mem_cons_of_mem cur h2))
      have e2 : decide (r ∉ visited) = false :=
        decide_eq_false (fun hn => hn h2)
      simp only [List.filter_cons, e1, e2]
      rw [if_neg Bool.false_ne_true, if_neg Bool.false_ne_true]
      exact ih
    · by_cases h1 : r ∈ cur :: visited
      · have e1 : decide (r ∉ cur :: visited) = false :=
          decide_eq_false (fun hn => hn h1)
        have e2 : decide (r ∉ visited) = true := decide_eq_true h2
        simp only [List.filter_cons, e1, e2]
        rw [if_neg Bool.false_ne_true, if_pos trivial]
        simp only [List.length_cons]
        exact Nat.le_succ_of_le ih
      · have e1 : decide (r ∉ cur :: visited) = true := decide_eq_true h1
        have e2 : decide (r ∉ visited) = true :=
          decide_eq_true (fun hm => h1 (List.mem_cons_of_mem cur hm))
        simp only [List.filter_cons, e1, e2]
        rw [if_pos trivial, if_pos trivial]
        simp only [List.length_cons]
        exact Nat.succ_le_succ ih

/-- Visiting an in-scope, not yet visited ramp strictly shrinks the
unseen count. -/
theorem unseenCount_cons_lt (ramps visited : List ℤ) (cur : ℤ)
    (hcur : cur ∈ ramps) (hnv : cur ∉ visited) :
    unseenCount ramps (cur :: visited) < unseenCount ramps visited := by
  induction hcur with
  | head rs =>
    unfold unseenCount
    have e1 : decide (cur ∉ cur :: visited) = false :=
      decide_eq_false (fun hn => hn (List.mem_cons_self cur visited))
    have e2 : decide (cur ∉ visited) = true := decide_eq_true hnv
    simp only [List.filter_cons, e1, e2]
    rw [if_neg Bool.false_ne_true, if_pos trivial]
    simp only [List.length_cons]
    exact Nat.lt_succ_of_le (unseenCount_cons_le rs visited cur)
  | tail r hmem ih =>
    rename_i rs
    have ih' := ih
    unfold unseenCount
    by_cases h2 : r ∈ visited
    · have e1 : decide (r ∉ cur :: visited) = false :=
        decide_eq_false (fun hn => hn (List.mem_cons_of_mem cur h2))
      have e2 : decide (r ∉ visited) = false :=
        decide_eq_false (fun hn => hn h2)
      simp only [List.filter_cons, e1, e2]
      rw [if_neg Bool.false_ne_true, if_neg Bool.false_ne_true]
      exact ih'
    · by_cases h1 : r ∈ cur :: visited
      · have e1 : decide (r ∉ cur :: visited) = false :=
          decide_eq_false (fun hn => hn h1)
        have e2 : decide (r ∉ visited) = true := decide_eq_true h2
        simp only [List.filter_cons, e1, e2]
        rw [if_neg Bool.false_ne_true, if_pos trivial]
        simp only [List.length_cons]
        exact Nat.lt_succ_of_lt ih'
      · have e1 : decide (r ∉ cur :: visited) = true := decide_eq_true h1
        have e2 : decide (r ∉ visited) = true :=
          decide_eq_true (fun hm => h1 (List.mem_cons_of_mem cur hm))
        simp only [List.filter_cons, e1, e2]
        rw [if_pos trivial, if_pos trivial]
        simp only [List.length_cons]
        exact Nat.succ_lt_succ ih'

/-- The walk's result is already determined by any fuel exceeding the
number of in-scope, unvisited ramps: the recursion depth actually used
is bounded by that count. -/
theorem walkAux_stable (adj : ℤ → List ℤ) (named : ℤ → Option String)
    (ramps : List ℤ) :
    ∀ u : ℕ, ∀ visited : List ℤ, ∀ cur : ℤ, ∀ fuel₁ fuel₂ : ℕ,
      unseenCount ramps visited = u → u < fuel₁ → u < fuel₂ →
      walkAux adj named ramps fuel₁ visited cur =
        walkAux adj named ramps fuel₂ visited cur := by
  intro u
  induction u using Nat.strong_induction_on with
  | _ u ih =>
    intro visited cur fuel₁ fuel₂ hu h1 h2
    match fuel₁, h1 with
    | a + 1, h1 =>
    match fuel₂, h2 with
    | b + 1, h2 =>
    simp only [walkAux]
    by_cases hr : cur ∈ ramps
    · by_cases hv : cur ∈ visited
      · simp [hr, hv]
      · cases hn : named cur with
        | some s => simp [hr, hv, hn]
        | none =>
          have hlt : unseenCount ramps (cur :: visited) < u :=
            hu ▸ unseenCount_cons_lt ramps visited cur hr hv
          have hrec : walkAux adj named ramps a (cur :: visited) =
              walkAux adj named ramps b (cur :: visited) := by
            funext x
            exact ih _ hlt (cur :: visited) x a b rfl
              (by omega) (by omega)
          simp [hr, hv, hn, hrec]
    · simp [hr]

/-- Claim C9: the destination-annotation walk terminates on cyclic ramp
graphs — a walk that revisits an already-visited ramp yields the empty
result, the walk's value is stable once the fuel exceeds the number of
in-scope unvisited ramps (so the recursion depth used is bounded by the
number of ramps in scope, covering any cycle), and the full walk
`destinationWalk` equals the walk at any fuel above the ramp count. -/
theorem destination_walk_terminates (adj : ℤ → List ℤ)
    (named : ℤ → Option String) (ramps : List ℤ)
    (fuel : ℕ) (visited : List ℤ) (cur : ℤ) :
    (cur ∈ visited → walkAux adj named ramps (fuel + 1) visited cur = []) ∧
    (∀ fuel₂ : ℕ,
      unseenCount ramps visited < fuel → unseenCount ramps visited < fuel₂ →
      walkAux adj named ramps fuel visited cur =
        walkAux adj named ramps fuel₂ visited cur) ∧
    (∀ fuel₂ : ℕ, ramps.length < fuel₂ →
      destinationWalk adj named ramps cur =
        walkAux adj named ramps fuel₂ [] cur) := by
  refine ⟨?_, ?_, ?_⟩
  · intro hv
    simp [walkAux, hv]
  · intro fuel₂ hlt1 hlt2
    exact walkAux_stable adj named ramps (unseenCount ramps visited)
      visited cur fuel fuel₂ rfl hlt1 hlt2
  · intro fuel₂ hlen
    have hle : unseenCount ramps [] ≤ ramps.length :=
      List.length_filter_le _ _
    exact walkAux_stable adj named ramps (unseenCount ramps []) [] cur
      (ramps.length + 1) fuel₂ rfl (by omega) (by omega)

/-- Witness for claim C9 on a concrete three-ramp cloverleaf cycle with
no named targets: revisiting yields the empty result, and the walk's
value does not change when the fuel grows past the ramp count. -/
theorem destination_walk_terminates_witness :
    walkAux sampleCycleAdj sampleCycleNamed sampleCycleRamps 5 [1] 1 = [] ∧
    walkAux sampleCycleAdj sampleCycleNamed sampleCycleRamps 4 [] 1 =
      walkAux sampleCycleAdj sampleCycleNamed sampleCycleRamps 9 [] 1 ∧
    destinationWalk sampleCycleAdj sampleCycleNamed sampleCycleRamps 1 =
      walkAux sampleCycleAdj sampleCycleNamed sampleCycleRamps 7 [] 1 :=
  ⟨(destination_walk_terminates sampleCycleAdj sampleCycleNamed
      sampleCycleRamps 4 [1] 1).1 (by decide),
   (destination_walk_terminates sampleCycleAdj sampleCycleNamed
      sampleCycleRamps 4 [] 1).2.1 9 (by decide) (by decide),
   (destination_walk_terminates sampleCycleAdj sampleCycleNamed
      sampleCycleRamps 4 [] 1).2.2 7 (by decide)⟩

